import Mathlib

/-!
Verification of the JSON greeting program (src/python/script.py).

The program reads all of standard input, parses it as JSON (`json.loads`),
looks up `data.get("name", "World")`, builds `{"message": greet(name)}` with
`greet(name) = f"Hello, {name}!"`, and prints `json.dumps(result)`.

The shallow embedding below models:
  * JSON values (`JValue`); numbers are modelled as integers — JSON float
    syntax (fractions, exponents, `NaN`/`Infinity`) is outside the model;
  * `json.loads` as a fuel-based recursive-descent parser (`jsonParse`):
    a `none` result models the `json.JSONDecodeError` the script does not
    catch.  Lone `\uXXXX` surrogate escapes, which Lean's `Char` cannot
    represent, are rejected by the model;
  * `json.dumps` (`jsonDumps`) with the default `", "` / `": "` separators;
    non-ASCII characters are left unescaped (Python's default
    `ensure_ascii=True` would emit `\uXXXX` escapes for them — no claim
    depends on that difference);
  * Python `str()` of a decoded JSON value (`pyStr`, used by the f-string
    in `greet`) together with `repr()` for container elements (`pyRepr`);
  * the process itself (`run`): stdout text and exit status.  An uncaught
    exception (`json.JSONDecodeError` from `json.loads`, or the
    `AttributeError` raised by `.get` on a non-dict) terminates Python with
    exit status 1 and nothing written to stdout.
-/

/-- A JSON value as produced by Python's `json.loads` (numbers restricted
to integers, see the module comment). -/
inductive JValue where
  | null : JValue
  | bool : Bool → JValue
  | num : Int → JValue
  | str : String → JValue
  | arr : List JValue → JValue
  | obj : List (String × JValue) → JValue

/-- Is the value a JSON object (a Python `dict` after decoding)? -/
def isObj : JValue → Bool
  | .obj _ => true
  | _ => false

/-- Is the value a JSON string? -/
def isStr : JValue → Bool
  | .str _ => true
  | _ => false

/-- Python `dict.get k`: duplicate keys in JSON source collapse to the last
occurrence, so the lookup returns the value of the last matching entry. -/
def dictGet : List (String × JValue) → String → Option JValue
  | [], _ => none
  | (k, v) :: rest, key =>
    match dictGet rest key with
    | some w => some w
    | none => if k = key then some v else none

/-- JSON whitespace skipping (space, tab, newline, carriage return),
as in Python's `json` scanner. -/
def skipWs : List Char → List Char
  | [] => []
  | c :: cs =>
    if c = ' ' ∨ c = '\t' ∨ c = '\n' ∨ c = '\r' then skipWs cs else c :: cs

/-- Value of one hexadecimal digit character. -/
def hexVal : Char → Option Nat
  | c =>
    if '0' ≤ c ∧ c ≤ '9' then some (c.toNat - 48)
    else if 'a' ≤ c ∧ c ≤ 'f' then some (c.toNat - 87)
    else if 'A' ≤ c ∧ c ≤ 'F' then some (c.toNat - 55)
    else none

/-- Value of a four-digit hexadecimal escape body. -/
def hex4 (h1 h2 h3 h4 : Char) : Option Nat :=
  match hexVal h1, hexVal h2, hexVal h3, hexVal h4 with
  | some a, some b, some c, some d => some (a * 4096 + b * 256 + c * 16 + d)
  | _, _, _, _ => none

/-- The single-character JSON string escapes. -/
def simpleUnescape (e : Char) : Option Char :=
  if e = '"' then some '"'
  else if e = '\\' then some '\\'
  else if e = '/' then some '/'
  else if e = 'b' then some '\x08'
  else if e = 'f' then some '\x0c'
  else if e = 'n' then some '\n'
  else if e = 'r' then some '\r'
  else if e = 't' then some '\t'
  else none

/-- Prepend a decoded character to a string-parse result. -/
def consChar (c : Char) : Option (List Char × List Char) → Option (List Char × List Char)
  | some (s, r) => some (c :: s, r)
  | none => none

mutual

/-- Parse the body of a JSON string after the opening quote; returns the
decoded characters and the input remaining after the closing quote.
Raw control characters are rejected (strict mode, as in Python). -/
def parseStrChars : List Char → Option (List Char × List Char)
  | [] => none
  | c :: cs =>
    if c = '"' then some ([], cs)
    else if c = '\\' then parseEsc cs
    else if c.toNat < 32 then none
    else consChar c (parseStrChars cs)

/-- Parse one escape sequence (input starts just after the backslash). -/
def parseEsc : List Char → Option (List Char × List Char)
  | [] => none
  | e :: cs =>
    if e = 'u' then parseUEsc cs
    else
      match simpleUnescape e with
      | some c => consChar c (parseStrChars cs)
      | none => none

/-- Parse the body of a `\uXXXX` escape (input starts just after the `u`). -/
def parseUEsc : List Char → Option (List Char × List Char)
  | h1 :: h2 :: h3 :: h4 :: cs' =>
    match hex4 h1 h2 h3 h4 with
    | none => none
    | some n =>
      if n < 0xD800 ∨ 0xE000 ≤ n then consChar (Char.ofNat n) (parseStrChars cs')
      else if n < 0xDC00 then parseLowSurrogate n cs'
      else none
  | _ => none

/-- Parse the low half of a `\uXXXX\uXXXX` surrogate pair (the high half
decoded to `n`), recombining the pair as Python's decoder does. -/
def parseLowSurrogate (n : Nat) : List Char → Option (List Char × List Char)
  | '\\' :: 'u' :: g1 :: g2 :: g3 :: g4 :: cs'' =>
    match hex4 g1 g2 g3 g4 with
    | some m =>
      if 0xDC00 ≤ m ∧ m < 0xE000 then
        consChar (Char.ofNat (0x10000 + (n - 0xD800) * 0x400 + (m - 0xDC00)))
          (parseStrChars cs'')
      else none
    | none => none
  | _ => none

end

/-- Split off a maximal run of decimal digits. -/
def digitsSpan : List Char → List Char × List Char
  | [] => ([], [])
  | c :: cs =>
    if c.isDigit then
      let (d, r) := digitsSpan cs
      (c :: d, r)
    else ([], c :: cs)

/-- Decimal value of a digit run. -/
def digitsToNat (ds : List Char) : Nat :=
  ds.foldl (fun a c => a * 10 + (c.toNat - 48)) 0

/-- Parse a JSON integer token (optional minus, no leading zeros).  A
following `.`, `e` or `E` would make it a float, which is outside the
model, so it is rejected here. -/
def parseNum : List Char → Option (Int × List Char)
  | cs =>
    let (neg, cs1) :=
      match cs with
      | '-' :: rest => (true, rest)
      | _ => (false, cs)
    match digitsSpan cs1 with
    | ([], _) => none
    | (d :: ds, r) =>
      if d = '0' ∧ ds ≠ [] then none
      else
        match r with
        | c :: _ =>
          if c = '.' ∨ c = 'e' ∨ c = 'E' then none
          else some (if neg then -(digitsToNat (d :: ds) : Int) else (digitsToNat (d :: ds) : Int), r)
        | [] => some (if neg then -(digitsToNat (d :: ds) : Int) else (digitsToNat (d :: ds) : Int), [])

mutual

/-- Parse one JSON value (leading whitespace allowed); fuel bounds the
recursion depth and is chosen large enough in `jsonParse`. -/
def parseValue : Nat → List Char → Option (JValue × List Char)
  | 0, _ => none
  | f + 1, cs =>
    match skipWs cs with
    | [] => none
    | c :: cs' =>
      if c = '"' then
        match parseStrChars cs' with
        | some (s, r) => some (.str (String.mk s), r)
        | none => none
      else if c = '\x7b' then
        match skipWs cs' with
        | [] => none
        | c2 :: cs'' =>
          if c2 = '\x7d' then some (.obj [], cs'')
          else
            match parseObjItems f (c2 :: cs'') with
            | some (es, r) => some (.obj es, r)
            | none => none
      else if c = '[' then
        match skipWs cs' with
        | [] => none
        | c2 :: cs'' =>
          if c2 = ']' then some (.arr [], cs'')
          else
            match parseArrItems f (c2 :: cs'') with
            | some (vs, r) => some (.arr vs, r)
            | none => none
      else if c = 't' then
        match cs' with
        | 'r' :: 'u' :: 'e' :: r => some (.bool true, r)
        | _ => none
      else if c = 'f' then
        match cs' with
        | 'a' :: 'l' :: 's' :: 'e' :: r => some (.bool false, r)
        | _ => none
      else if c = 'n' then
        match cs' with
        | 'u' :: 'l' :: 'l' :: r => some (.null, r)
        | _ => none
      else if c = '-' ∨ c.isDigit then
        match parseNum (c :: cs') with
        | some (n, r) => some (.num n, r)
        | none => none
      else none

/-- Parse the (nonempty) element list of a JSON array, input starting at
the first element. -/
def parseArrItems : Nat → List Char → Option (List JValue × List Char)
  | 0, _ => none
  | f + 1, cs =>
    match parseValue f cs with
    | none => none
    | some (v, r) =>
      match skipWs r with
      | [] => none
      | c :: r' =>
        if c = ',' then
          match parseArrItems f r' with
          | some (vs, r'') => some (v :: vs, r'')
          | none => none
        else if c = ']' then some ([v], r')
        else none

/-- Parse the (nonempty) member list of a JSON object, input starting at
the first key (whitespace already skipped). -/
def parseObjItems : Nat → List Char → Option (List (String × JValue) × List Char)
  | 0, _ => none
  | f + 1, cs =>
    match cs with
    | [] => none
    | c :: cs' =>
      if c = '"' then
        match parseStrChars cs' with
        | none => none
        | some (k, r1) =>
          match skipWs r1 with
          | [] => none
          | c2 :: r2 =>
            if c2 = ':' then
              match parseValue f r2 with
              | none => none
              | some (v, r3) =>
                match skipWs r3 with
                | [] => none
                | c3 :: r4 =>
                  if c3 = ',' then
                    match parseObjItems f (skipWs r4) with
                    | some (es, r5) => some ((String.mk k, v) :: es, r5)
                    | none => none
                  else if c3 = '\x7d' then some ([(String.mk k, v)], r4)
                  else none
            else none
      else none

end

/-- Model of `json.loads`: parse the whole input as one JSON document,
allowing surrounding whitespace, rejecting trailing data.  `none` models
an uncaught `json.JSONDecodeError`. -/
def jsonParse (s : String) : Option JValue :=
  match parseValue (2 * s.toList.length + 4) s.toList with
  | some (v, r) => if skipWs r = [] then some v else none
  | none => none

/-- Lower-case hexadecimal digit character for a value below 16. -/
def hexDigitChar (n : Nat) : Char :=
  if n < 10 then Char.ofNat (48 + n) else Char.ofNat (87 + n)

/-- `json.dumps` escaping of one character inside a string literal
(the quote, the backslash, and control characters; see the module
comment for the `ensure_ascii` simplification). -/
def jsonEscChar (c : Char) : List Char :=
  if c = '"' then ['\\', '"']
  else if c = '\\' then ['\\', '\\']
  else if c = '\n' then ['\\', 'n']
  else if c = '\r' then ['\\', 'r']
  else if c = '\t' then ['\\', 't']
  else if c = '\x08' then ['\\', 'b']
  else if c = '\x0c' then ['\\', 'f']
  else if c.toNat < 32 then
    ['\\', 'u', '0', '0', hexDigitChar (c.toNat / 16), hexDigitChar (c.toNat % 16)]
  else [c]

/-- `json.dumps` escaping of a whole string body. -/
def jsonEscList : List Char → List Char
  | [] => []
  | c :: cs => jsonEscChar c ++ jsonEscList cs

/-- Join serialized members with the `", "` item separator Python's
`json.dumps` and `repr` both use. -/
def joinComma : List String → String
  | [] => ""
  | [a] => a
  | a :: b :: rest => a ++ ", " ++ joinComma (b :: rest)

mutual

/-- Model of `json.dumps` with Python's default separators
(`", "` between members, `": "` after keys). -/
def jsonDumps : JValue → String
  | .null => "null"
  | .bool true => "true"
  | .bool false => "false"
  | .num n => toString n
  | .str s => "\"" ++ String.mk (jsonEscList s.toList) ++ "\""
  | .arr vs => "[" ++ joinComma (jsonDumpsList vs) ++ "]"
  | .obj es => "\x7b" ++ joinComma (jsonDumpsEntries es) ++ "\x7d"

/-- Serialized forms of the elements of an array. -/
def jsonDumpsList : List JValue → List String
  | [] => []
  | v :: vs => jsonDumps v :: jsonDumpsList vs

/-- Serialized `"key": value` forms of the members of an object. -/
def jsonDumpsEntries : List (String × JValue) → List String
  | [] => []
  | (k, v) :: es =>
    ("\"" ++ String.mk (jsonEscList k.toList) ++ "\": " ++ jsonDumps v) :: jsonDumpsEntries es

end

/-- Python `repr` escaping of one character of a string literal quoted
with `q` (restricted to the escapes exercised here: backslash, the quote,
and control characters). -/
def pyReprEscChar (q : Char) (c : Char) : List Char :=
  if c = '\\' then ['\\', '\\']
  else if c = q then ['\\', q]
  else if c = '\n' then ['\\', 'n']
  else if c = '\r' then ['\\', 'r']
  else if c = '\t' then ['\\', 't']
  else if c.toNat < 32 then ['\\', 'x', hexDigitChar (c.toNat / 16), hexDigitChar (c.toNat % 16)]
  else [c]

/-- Python `repr` of a string: single-quoted, switching to double quotes
when the string contains a single quote but no double quote. -/
def pyReprStr (s : String) : String :=
  let q : Char := if s.toList.contains '\'' ∧ ¬ s.toList.contains '"' then '"' else '\''
  String.mk (q :: s.toList.foldr (fun c acc => pyReprEscChar q c ++ acc) [q])

mutual

/-- Python `repr()` of a decoded JSON value (used for elements inside
containers when the f-string stringifies a list or dict). -/
def pyRepr : JValue → String
  | .null => "None"
  | .bool true => "True"
  | .bool false => "False"
  | .num n => toString n
  | .str s => pyReprStr s
  | .arr vs => "[" ++ joinComma (pyReprList vs) ++ "]"
  | .obj es => "\x7b" ++ joinComma (pyReprEntries es) ++ "\x7d"

/-- `repr` forms of the elements of a list. -/
def pyReprList : List JValue → List String
  | [] => []
  | v :: vs => pyRepr v :: pyReprList vs

/-- `repr` forms of the `key: value` pairs of a dict. -/
def pyReprEntries : List (String × JValue) → List String
  | [] => []
  | (k, v) :: es => (pyReprStr k ++ ": " ++ pyRepr v) :: pyReprEntries es

end

/-- Python `str()` of a decoded JSON value: identical to `repr` except on
strings, which print without quotes.  This is what the f-string
`f"Hello, \x7bname\x7d!"` applies to `name`. -/
def pyStr : JValue → String
  | .str s => s
  | v => pyRepr v

/-- `greet` from src/python/script.py: `return f"Hello, \x7bname\x7d!"`. -/
def greet (name : JValue) : String :=
  "Hello, " ++ pyStr name ++ "!"

/-- `data.get("name", "World")` on a successfully decoded object. -/
def resolveName (entries : List (String × JValue)) : JValue :=
  (dictGet entries "name").getD (.str "World")

/-- Observable outcome of one process invocation: everything written to
standard output, and the exit status. -/
structure RunResult where
  stdout : String
  exitCode : Nat
deriving DecidableEq, Repr

/-- The whole program.  `json.loads` failure and the `AttributeError`
raised by `.get` on a non-dict are uncaught, terminating Python with exit
status 1 before anything is printed; on success the script prints
`json.dumps({"message": greet(name)})` followed by the newline `print`
appends. -/
def run (input : String) : RunResult :=
  match jsonParse input with
  | some (.obj entries) =>
    { stdout := jsonDumps (JValue.obj [("message", .str (greet (resolveName entries)))]) ++ "\n"
      exitCode := 0 }
  | some _ => { stdout := "", exitCode := 1 }
  | none => { stdout := "", exitCode := 1 }

theorem hexVal_hexDigitChar (n : Nat) (h : n < 16) : hexVal (hexDigitChar n) = some n := by
  interval_cases n <;> rfl

theorem hexDigitChar_ne_newline (n : Nat) (h : n < 16) : hexDigitChar n ≠ '\n' := by
  interval_cases n <;> decide

theorem parseStrChars_ord (c : Char) (cs : List Char) (h1 : c ≠ '"') (h2 : c ≠ '\\')
    (h3 : ¬ c.toNat < 32) : parseStrChars (c :: cs) = consChar c (parseStrChars cs) := by
  change (if c = '"' then some (([] : List Char), cs)
    else if c = '\\' then parseEsc cs
    else if c.toNat < 32 then none
    else consChar c (parseStrChars cs)) = consChar c (parseStrChars cs)
  rw [if_neg h1, if_neg h2, if_neg h3]

theorem parseUEsc_low (a b : Char) (n1 n2 : Nat) (tail : List Char)
    (ha : hexVal a = some n1) (hb : hexVal b = some n2) (h : n1 * 16 + n2 < 0xD800) :
    parseUEsc ('0' :: '0' :: a :: b :: tail)
      = consChar (Char.ofNat (n1 * 16 + n2)) (parseStrChars tail) := by
  have hv : hexVal '0' = some 0 := rfl
  have hh : hex4 '0' '0' a b = some (n1 * 16 + n2) := by
    simp [hex4, ha, hb, hv]
  change (match hex4 '0' '0' a b with
    | none => none
    | some n =>
      if n < 0xD800 ∨ 0xE000 ≤ n then consChar (Char.ofNat n) (parseStrChars tail)
      else if n < 0xDC00 then parseLowSurrogate n tail
      else none) = consChar (Char.ofNat (n1 * 16 + n2)) (parseStrChars tail)
  rw [hh]
  change (if n1 * 16 + n2 < 0xD800 ∨ 0xE000 ≤ n1 * 16 + n2 then
      consChar (Char.ofNat (n1 * 16 + n2)) (parseStrChars tail)
    else if n1 * 16 + n2 < 0xDC00 then parseLowSurrogate (n1 * 16 + n2) tail
    else none) = consChar (Char.ofNat (n1 * 16 + n2)) (parseStrChars tail)
  rw [if_pos (Or.inl h)]

/-- Reading back the `json.dumps` escaping of a string recovers it:
the string-body parser consumes exactly the escaped characters and stops
at the closing quote. -/
theorem parseStrChars_jsonEsc (cs rest : List Char) :
    parseStrChars (jsonEscList cs ++ '"' :: rest) = some (cs, rest) := by
  induction cs with
  | nil => rfl
  | cons c cs ih =>
    by_cases h1 : c = '"'
    · subst h1
      change consChar '"' (parseStrChars (jsonEscList cs ++ '"' :: rest)) = _
      rw [ih]; rfl
    · by_cases h2 : c = '\\'
      · subst h2
        change consChar '\\' (parseStrChars (jsonEscList cs ++ '"' :: rest)) = _
        rw [ih]; rfl
      · by_cases h3 : c = '\n'
        · subst h3
          change consChar '\n' (parseStrChars (jsonEscList cs ++ '"' :: rest)) = _
          rw [ih]; rfl
        · by_cases h4 : c = '\r'
          · subst h4
            change consChar '\r' (parseStrChars (jsonEscList cs ++ '"' :: rest)) = _
            rw [ih]; rfl
          · by_cases h5 : c = '\t'
            · subst h5
              change consChar '\t' (parseStrChars (jsonEscList cs ++ '"' :: rest)) = _
              rw [ih]; rfl
            · by_cases h6 : c = '\x08'
              · subst h6
                change consChar '\x08' (parseStrChars (jsonEscList cs ++ '"' :: rest)) = _
                rw [ih]; rfl
              · by_cases h7 : c = '\x0c'
                · subst h7
                  change consChar '\x0c' (parseStrChars (jsonEscList cs ++ '"' :: rest)) = _
                  rw [ih]; rfl
                · by_cases h8 : c.toNat < 32
                  · have hdiv : c.toNat / 16 < 16 := by omega
                    have hmod : c.toNat % 16 < 16 := by omega
                    have hesc : jsonEscChar c
                        = ['\\', 'u', '0', '0', hexDigitChar (c.toNat / 16),
                           hexDigitChar (c.toNat % 16)] := by
                      simp [jsonEscChar, h1, h2, h3, h4, h5, h6, h7, h8]
                    have hsplit : jsonEscList (c :: cs) ++ '"' :: rest
                        = '\\' :: 'u' :: '0' :: '0' :: hexDigitChar (c.toNat / 16) ::
                          hexDigitChar (c.toNat % 16) :: (jsonEscList cs ++ '"' :: rest) := by
                      simp [jsonEscList, hesc]
                    rw [hsplit]
                    have hstep : parseStrChars ('\\' :: 'u' :: '0' :: '0' ::
                          hexDigitChar (c.toNat / 16) :: hexDigitChar (c.toNat % 16) ::
                          (jsonEscList cs ++ '"' :: rest))
                        = parseUEsc ('0' :: '0' :: hexDigitChar (c.toNat / 16) ::
                          hexDigitChar (c.toNat % 16) :: (jsonEscList cs ++ '"' :: rest)) := rfl
                    rw [hstep, parseUEsc_low _ _ _ _ _ (hexVal_hexDigitChar _ hdiv)
                      (hexVal_hexDigitChar _ hmod) (by omega), ih]
                    have hc : c.toNat / 16 * 16 + c.toNat % 16 = c.toNat := by omega
                    rw [hc, Char.ofNat_toNat]
                    rfl
                  · have hesc : jsonEscChar c = [c] := by
                      simp [jsonEscChar, h1, h2, h3, h4, h5, h6, h7, h8]
                    have hsplit : jsonEscList (c :: cs) ++ '"' :: rest
                        = c :: (jsonEscList cs ++ '"' :: rest) := by
                      simp [jsonEscList, hesc]
                    rw [hsplit, parseStrChars_ord _ _ h1 h2 h8, ih]
                    rfl

theorem newline_notin_jsonEscChar (c : Char) : '\n' ∉ jsonEscChar c := by
  unfold jsonEscChar
  split_ifs with h1 h2 h3 h4 h5 h6 h7 h8
  · decide
  · decide
  · decide
  · decide
  · decide
  · decide
  · decide
  · have d1 : hexDigitChar (c.toNat / 16) ≠ '\n' := hexDigitChar_ne_newline _ (by omega)
    have d2 : hexDigitChar (c.toNat % 16) ≠ '\n' := hexDigitChar_ne_newline _ (by omega)
    simp only [List.mem_cons, List.not_mem_nil, or_false]
    push_neg
    exact ⟨by decide, by decide, by decide, by decide, fun hx => d1 hx.symm, fun hx => d2 hx.symm⟩
  · simp only [List.mem_singleton]
    intro hx
    apply h8
    rw [← hx]
    decide

theorem newline_notin_jsonEscList (cs : List Char) : '\n' ∉ jsonEscList cs := by
  induction cs with
  | nil => simp [jsonEscList]
  | cons c cs ih =>
    simp only [jsonEscList, List.mem_append]
    rintro (hm | hm)
    · exact newline_notin_jsonEscChar c hm
    · exact ih hm

theorem jsonDumps_msgObj_toList (m : String) :
    (jsonDumps (JValue.obj [("message", JValue.str m)])).toList
      = '\x7b' :: '"' :: 'm' :: 'e' :: 's' :: 's' :: 'a' :: 'g' :: 'e' :: '"' :: ':' :: ' ' ::
        '"' :: (jsonEscList m.toList ++ ['"', '\x7d']) := by
  simp only [jsonDumps, jsonDumpsEntries, joinComma]
  change ("\x7b" ++ ("\"" ++ String.mk (jsonEscList "message".toList) ++ "\": " ++
    ("\"" ++ String.mk (jsonEscList m.toList) ++ "\"")) ++ "\x7d").data = _
  simp only [String.data_append]
  simp [List.append_assoc]
  rfl

theorem jsonDumps_msgObj_newline_toList (m : String) :
    (jsonDumps (JValue.obj [("message", JValue.str m)]) ++ "\n").toList
      = '\x7b' :: '"' :: 'm' :: 'e' :: 's' :: 's' :: 'a' :: 'g' :: 'e' :: '"' :: ':' :: ' ' ::
        '"' :: (jsonEscList m.toList ++ ['"', '\x7d', '\n']) := by
  have h := jsonDumps_msgObj_toList m
  change (jsonDumps (JValue.obj [("message", JValue.str m)]) ++ "\n").data = _
  rw [String.data_append]
  change (jsonDumps (JValue.obj [("message", JValue.str m)])).toList ++ ['\n'] = _
  rw [h]
  simp [List.append_assoc]

theorem parseValue_str_quote (f : Nat) (l : List Char) (rest : List Char) :
    parseValue (f + 1) (' ' :: '"' :: (jsonEscList l ++ '"' :: rest))
      = some (JValue.str (String.mk l), rest) := by
  change (match parseStrChars (jsonEscList l ++ '"' :: rest) with
    | some (s, r) => some (JValue.str (String.mk s), r)
    | none => none) = some (JValue.str (String.mk l), rest)
  rw [parseStrChars_jsonEsc]

theorem parseObjItems_msg (f : Nat) (l : List Char) :
    parseObjItems (f + 1 + 1)
        ('"' :: 'm' :: 'e' :: 's' :: 's' :: 'a' :: 'g' :: 'e' :: '"' :: ':' :: ' ' :: '"' ::
          (jsonEscList l ++ ['"', '\x7d', '\n']))
      = some ([("message", JValue.str (String.mk l))], ['\n']) := by
  have hval := parseValue_str_quote f l ('\x7d' :: '\n' :: [])
  change (match parseValue (f + 1) (' ' :: '"' :: (jsonEscList l ++ '"' :: '\x7d' :: '\n' :: []))
      with
    | none => none
    | some (v, r3) =>
      match skipWs r3 with
      | [] => none
      | c3 :: r4 =>
        if c3 = ',' then
          match parseObjItems (f + 1) (skipWs r4) with
          | some (es, r5) =>
            some ((String.mk ['m', 'e', 's', 's', 'a', 'g', 'e'], v) :: es, r5)
          | none => none
        else if c3 = '\x7d' then
          some ([(String.mk ['m', 'e', 's', 's', 'a', 'g', 'e'], v)], r4)
        else none) = some ([("message", JValue.str (String.mk l))], ['\n'])
  rw [hval]
  rfl

theorem parseValue_msgObj (f : Nat) (l : List Char) :
    parseValue (f + 1 + 1 + 1)
        ('\x7b' :: '"' :: 'm' :: 'e' :: 's' :: 's' :: 'a' :: 'g' :: 'e' :: '"' :: ':' :: ' ' ::
          '"' :: (jsonEscList l ++ ['"', '\x7d', '\n']))
      = some (JValue.obj [("message", JValue.str (String.mk l))], ['\n']) := by
  have hobj := parseObjItems_msg f l
  change (match parseObjItems (f + 1 + 1)
      ('"' :: 'm' :: 'e' :: 's' :: 's' :: 'a' :: 'g' :: 'e' :: '"' :: ':' :: ' ' :: '"' ::
        (jsonEscList l ++ ['"', '\x7d', '\n'])) with
    | some (es, r) => some (JValue.obj es, r)
    | none => none) = some (JValue.obj [("message", JValue.str (String.mk l))], ['\n'])
  rw [hobj]

/-- Parsing the serialized response (with its trailing newline) recovers
the response object. -/
theorem roundtrip_message (m : String) :
    jsonParse (jsonDumps (JValue.obj [("message", JValue.str m)]) ++ "\n")
      = some (JValue.obj [("message", JValue.str m)]) := by
  have hl := jsonDumps_msgObj_newline_toList m
  unfold jsonParse
  rw [hl]
  have hlen : ('\x7b' :: '"' :: 'm' :: 'e' :: 's' :: 's' :: 'a' :: 'g' :: 'e' :: '"' :: ':' ::
      ' ' :: '"' :: (jsonEscList m.toList ++ ['"', '\x7d', '\n'])).length
      = (jsonEscList m.toList).length + 16 := by
    simp
  rw [hlen]
  obtain ⟨g, hg⟩ : ∃ g, 2 * ((jsonEscList m.toList).length + 16) + 4 = g + 1 + 1 + 1 :=
    ⟨2 * ((jsonEscList m.toList).length + 16) + 1, by omega⟩
  rw [hg, parseValue_msgObj]
  rfl

theorem run_of_obj (input : String) (entries : List (String × JValue))
    (h : jsonParse input = some (.obj entries)) :
    run input =
      { stdout := jsonDumps (JValue.obj [("message", .str (greet (resolveName entries)))]) ++ "\n",
        exitCode := 0 } := by
  unfold run
  rw [h]

theorem exitCode_zero_obj (input : String) (h : (run input).exitCode = 0) :
    ∃ entries, jsonParse input = some (JValue.obj entries) := by
  rcases hp : jsonParse input with _ | v
  · simp [run, hp] at h
  · cases v with
    | obj es => exact ⟨es, rfl⟩
    | null => simp [run, hp] at h
    | bool b => simp [run, hp] at h
    | num n => simp [run, hp] at h
    | str s => simp [run, hp] at h
    | arr vs => simp [run, hp] at h

/-- C1: for every string n, running the program on standard input holding
the JSON object with the single member "name": n succeeds with exit status
zero and prints the serialized JSON object with the single member
"message": "Hello, " ++ n ++ "!". -/
theorem greeting_for_name (input : String) (n : String)
    (h : jsonParse input = some (JValue.obj [("name", JValue.str n)])) :
    run input =
      { stdout := jsonDumps (JValue.obj [("message", JValue.str ("Hello, " ++ n ++ "!"))]) ++ "\n",
        exitCode := 0 } := by
  rw [run_of_obj _ _ h]
  rfl

theorem greeting_for_name_witness :
    jsonParse "\x7b\"name\": \"Ada\"\x7d" = some (JValue.obj [("name", JValue.str "Ada")]) ∧
    run "\x7b\"name\": \"Ada\"\x7d" =
      { stdout :=
          jsonDumps (JValue.obj [("message", JValue.str ("Hello, " ++ "Ada" ++ "!"))]) ++ "\n",
        exitCode := 0 } :=
  ⟨rfl, greeting_for_name _ "Ada" rfl⟩

/-- C2 (counterexample): the code does not check the type of the "name"
value.  On the object with "name" mapped to the number 42, `dict.get`
returns the number itself, `resolveName` passes it unchanged to the
greeting transform, and the program prints "Hello, 42!" — so a non-string
"name" value IS used as the name, contradicting the claim. -/
theorem name_type_unchecked_counterexample :
    dictGet [("name", JValue.num 42)] "name" = some (JValue.num 42) ∧
    isStr (JValue.num 42) = false ∧
    resolveName [("name", JValue.num 42)] = JValue.num 42 ∧
    run "\x7b\"name\": 42\x7d" =
      { stdout := "\x7b\"message\": \"Hello, 42!\"\x7d\n", exitCode := 0 } := by
  refine ⟨rfl, rfl, rfl, ?_⟩
  have h : jsonParse "\x7b\"name\": 42\x7d" = some (.obj [("name", .num 42)]) := rfl
  simp only [run, h, resolveName, dictGet, greet, pyStr, pyRepr, jsonDumps, jsonDumpsEntries,
    joinComma]
  rfl

/-- C2 (amended): the pipeline extracts the "name" value of the decoded
object whenever the key is present, regardless of the value's type; the
extracted value, string or not, is what is passed to the greeting
transform (which stringifies it). -/
theorem name_extracted_regardless_of_type (entries : List (String × JValue)) (v : JValue)
    (h : dictGet entries "name" = some v) : resolveName entries = v := by
  simp [resolveName, h]

theorem name_extracted_regardless_of_type_witness :
    dictGet [("name", JValue.num 42)] "name" = some (JValue.num 42) ∧
    resolveName [("name", JValue.num 42)] = JValue.num 42 :=
  ⟨rfl, name_extracted_regardless_of_type _ _ rfl⟩

/-- C3: whenever the input parses to an object with no "name" key (in
particular the empty object), the run succeeds and prints the greeting for
the literal default string "World". -/
theorem missing_name_defaults_world (input : String) (entries : List (String × JValue))
    (h : jsonParse input = some (JValue.obj entries))
    (hname : dictGet entries "name" = none) :
    run input = { stdout := "\x7b\"message\": \"Hello, World!\"\x7d\n", exitCode := 0 } := by
  rw [run_of_obj _ _ h]
  have h2 : greet (resolveName entries) = "Hello, World!" := by
    rw [show resolveName entries = JValue.str "World" from by simp [resolveName, hname]]
    rfl
  rw [h2]
  simp only [jsonDumps, jsonDumpsEntries, joinComma]
  rfl

theorem missing_name_defaults_world_witness :
    jsonParse "\x7b\x7d" = some (JValue.obj []) ∧
    dictGet ([] : List (String × JValue)) "name" = none ∧
    run "\x7b\x7d" = { stdout := "\x7b\"message\": \"Hello, World!\"\x7d\n", exitCode := 0 } :=
  ⟨rfl, rfl, missing_name_defaults_world _ [] rfl rfl⟩

/-- C4: on every input that is not valid JSON (parse failure) or whose
parsed value is not an object, the program exits with status 1 and writes
nothing to standard output (in particular no "message" object). -/
theorem nonobject_input_fails (input : String)
    (h : jsonParse input = none ∨ ∃ v, jsonParse input = some v ∧ isObj v = false) :
    run input = { stdout := "", exitCode := 1 } := by
  rcases h with h | ⟨v, hv, hobj⟩
  · simp [run, h]
  · cases v with
    | obj es => simp [isObj] at hobj
    | null => simp [run, hv]
    | bool b => simp [run, hv]
    | num n => simp [run, hv]
    | str s => simp [run, hv]
    | arr vs => simp [run, hv]

theorem nonobject_input_fails_witness :
    (jsonParse "[1,2,3]" = none ∨
      ∃ v, jsonParse "[1,2,3]" = some v ∧ isObj v = false) ∧
    run "[1,2,3]" = { stdout := "", exitCode := 1 } :=
  ⟨Or.inr ⟨JValue.arr [JValue.num 1, JValue.num 2, JValue.num 3], rfl, rfl⟩,
    nonobject_input_fails _
      (Or.inr ⟨JValue.arr [JValue.num 1, JValue.num 2, JValue.num 3], rfl, rfl⟩)⟩

/-- C5: greet is a pure total function of the name string: for every
string s (the empty string included) it returns exactly the concatenation
"Hello, " ++ s ++ "!". -/
theorem greet_concatenates (s : String) :
    greet (JValue.str s) = "Hello, " ++ s ++ "!" := rfl

/-- C6: on every input on which the program succeeds, the text written to
standard output is valid JSON parsing back to an object with exactly one
member, whose key is "message" and whose value is a string. -/
theorem output_parses_back_message (input : String) (h : (run input).exitCode = 0) :
    ∃ m : String,
      jsonParse ((run input).stdout) = some (JValue.obj [("message", JValue.str m)]) := by
  obtain ⟨entries, hp⟩ := exitCode_zero_obj input h
  refine ⟨greet (resolveName entries), ?_⟩
  rw [show (run input).stdout
      = jsonDumps (JValue.obj [("message", JValue.str (greet (resolveName entries)))]) ++ "\n"
    from by rw [run_of_obj _ _ hp]]
  exact roundtrip_message _

theorem output_parses_back_message_witness :
    (run "\x7b\x7d").exitCode = 0 ∧
    ∃ m : String,
      jsonParse ((run "\x7b\x7d").stdout) = some (JValue.obj [("message", JValue.str m)]) :=
  ⟨rfl, output_parses_back_message _ rfl⟩

/-- C7: the program is deterministic — two invocations on byte-identical
standard input produce identical standard output and exit status. -/
theorem run_deterministic (i1 i2 : String) (h : i1 = i2) : run i1 = run i2 := by
  rw [h]

theorem run_deterministic_witness :
    "\x7b\"name\": \"Ada\"\x7d" = "\x7b\"name\": \"Ada\"\x7d" ∧
    run "\x7b\"name\": \"Ada\"\x7d" = run "\x7b\"name\": \"Ada\"\x7d" :=
  ⟨rfl, run_deterministic _ _ rfl⟩

/-- C8: only the "name" entry of the decoded object influences the
output: two inputs parsing to objects that agree on the lookup of "name"
(present with equal values, or both absent) produce identical results. -/
theorem only_name_influences_output (i1 i2 : String)
    (e1 e2 : List (String × JValue))
    (h1 : jsonParse i1 = some (JValue.obj e1)) (h2 : jsonParse i2 = some (JValue.obj e2))
    (hname : dictGet e1 "name" = dictGet e2 "name") :
    run i1 = run i2 := by
  rw [run_of_obj _ _ h1, run_of_obj _ _ h2]
  rw [show resolveName e1 = resolveName e2 from by simp [resolveName, hname]]

theorem only_name_influences_output_witness :
    jsonParse "\x7b\"name\": \"Ada\", \"extra\": 1\x7d"
      = some (JValue.obj [("name", JValue.str "Ada"), ("extra", JValue.num 1)]) ∧
    jsonParse "\x7b\"other\": true, \"name\": \"Ada\"\x7d"
      = some (JValue.obj [("other", JValue.bool true), ("name", JValue.str "Ada")]) ∧
    dictGet [("name", JValue.str "Ada"), ("extra", JValue.num 1)] "name"
      = dictGet [("other", JValue.bool true), ("name", JValue.str "Ada")] "name" ∧
    run "\x7b\"name\": \"Ada\", \"extra\": 1\x7d" = run "\x7b\"other\": true, \"name\": \"Ada\"\x7d" :=
  ⟨rfl, rfl, rfl, only_name_influences_output _ _ _ _ rfl rfl rfl⟩

/-- C9: every successful run writes the serialized response as a single
line: the whole of standard output is that line followed by exactly one
trailing newline, and the line itself contains no newline. -/
theorem single_line_trailing_newline (input : String) (h : (run input).exitCode = 0) :
    ∃ line : String, (run input).stdout = line ++ "\n" ∧ '\n' ∉ line.toList := by
  obtain ⟨entries, hp⟩ := exitCode_zero_obj input h
  refine ⟨jsonDumps (JValue.obj [("message", JValue.str (greet (resolveName entries)))]), ?_, ?_⟩
  · rw [run_of_obj _ _ hp]
  · rw [jsonDumps_msgObj_toList]
    intro hm
    simp only [List.mem_cons, List.mem_append] at hm
    rcases hm with h' | h' | h' | h' | h' | h' | h' | h' | h' | h' | h' | h' | h' | h'
    all_goals first
      | exact absurd h' (by decide)
      | (rcases h' with h'' | h''
         · exact newline_notin_jsonEscList _ h''
         · exact absurd h'' (by decide))

theorem single_line_trailing_newline_witness :
    (run "\x7b\x7d").exitCode = 0 ∧
    ∃ line : String, (run "\x7b\x7d").stdout = line ++ "\n" ∧ '\n' ∉ line.toList :=
  ⟨rfl, single_line_trailing_newline _ rfl⟩

/-- C10: failure is atomic with respect to standard output — on every
input on which the run fails (nonzero exit: parse failure or the
attribute error from looking up "name" on a non-dict), nothing at all has
been written to standard output. -/
theorem failure_writes_nothing (input : String) (h : (run input).exitCode ≠ 0) :
    (run input).stdout = "" := by
  rcases hp : jsonParse input with _ | v
  · simp [run, hp]
  · cases v with
    | obj es => exact absurd (by simp [run, hp]) h
    | null => simp [run, hp]
    | bool b => simp [run, hp]
    | num n => simp [run, hp]
    | str s => simp [run, hp]
    | arr vs => simp [run, hp]

theorem failure_writes_nothing_witness :
    (run "\x7b").exitCode ≠ 0 ∧ (run "\x7b").stdout = "" :=
  ⟨by decide, failure_writes_nothing _ (by decide)⟩
